import Mathlib

/-!
Shallow embedding of the "fluffles" evolutionary-simulation core.

TypeScript numbers are modelled as exact rationals, grid coordinates as
integers, and every draw of the shared random source is passed in
explicitly — either as a single rational argument or as a stream
consumed left to right — so each stochastic operation becomes a pure
function of its draws.  Object state is modelled by value-passing: a
method that mutates its receiver becomes a function returning the
updated record.
-/

/-- A gene as declared in dna.ts: a named value with a mutation rate. -/
structure Gene where
  name : String
  value : ℚ
  mutationRate : ℚ
deriving DecidableEq

/-- The gene map of a DNA object (dna.ts, field genes of type
Map from string to Gene), modelled as its entry list in insertion
order; keys (gene names) are unique in every map the program builds. -/
abbrev DNA := List Gene

namespace DNA

/-- The map keys (gene names) in insertion order. -/
def names (d : DNA) : List String := d.map Gene.name

/-- getGene (dna.ts line 33): the entry stored under key n. -/
def getGene : DNA → String → Option Gene
  | [], _ => none
  | g :: t, n => if g.name = n then some g else getGene t n

/-- addGene (dna.ts line 29), i.e. Map.set: replace the entry holding
the same key in place, otherwise append the new entry. -/
def addGene : DNA → Gene → DNA
  | [], g => [g]
  | h :: t, g => if h.name = g.name then g :: t else h :: addGene t g

/-- The clamp Math.max(0, Math.min(1, x)) used by mutate (dna.ts 50). -/
def clamp01 (x : ℚ) : ℚ := max 0 (min 1 x)

/-- Treatment of one gene inside mutate (dna.ts 44-61): u is the
shouldMutate draw, v the mutationAmount draw; the latter is only
consumed when u falls below the gene's own mutation rate, in which
case the value moves by (v*2-1)*0.1 and is clamped into [0,1] while
name and mutation rate are kept; otherwise the gene is copied as is. -/
def mutateGene (g : Gene) (u v : ℚ) : Gene :=
  if u < g.mutationRate then
    { g with value := clamp01 (g.value + (v * 2 - 1) * (1/10)) }
  else g

/-- Main loop of mutate (dna.ts 41-63) over the gene entries, threading
the index of the next unconsumed random draw. -/
def mutateGo (rand : ℕ → ℚ) : DNA → ℕ → DNA
  | [], _ => []
  | g :: t, i =>
      mutateGene g (rand i) (rand (i+1)) ::
        mutateGo rand t (if rand i < g.mutationRate then i + 2 else i + 1)

/-- DNA.mutate (dna.ts 41): each gene independently mutates when its
shouldMutate draw is below its mutation rate, else is copied. -/
def mutate (d : DNA) (rand : ℕ → ℚ) : DNA := mutateGo rand d 0

/-- Index of the draw consumed by the shouldMutate test of gene number
n of the list, matching the threading of mutateGo. -/
def mutStart (rand : ℕ → ℚ) : DNA → ℕ → ℕ → ℕ
  | [], k, _ => k
  | _ :: _, k, 0 => k
  | g :: t, k, n+1 =>
      mutStart rand t (if rand k < g.mutationRate then k + 2 else k + 1) n

/-- Iteration order of new Set([...dna1.genes.keys(), ...dna2.genes.keys()])
(dna.ts 71-74): the first parent's keys followed by the second parent's
keys not already seen (keys are unique within each parent's map). -/
def unionNames (d1 d2 : DNA) : List String :=
  names d1 ++ (names d2).filter (fun n => decide (n ∉ names d1))

/-- Inheritance choice for a gene both parents carry (dna.ts 82-97):
a draw below 0.4 takes the first parent's gene, below 0.8 the second
parent's, otherwise a fresh gene averages value and mutation rate. -/
def chooseGene (g1 g2 : Gene) (n : String) (u : ℚ) : Gene :=
  if u < 2/5 then g1
  else if u < 4/5 then g2
  else { name := n, value := (g1.value + g2.value) / 2,
         mutationRate := (g1.mutationRate + g2.mutationRate) / 2 }

/-- Main loop of combine (dna.ts 76-105) over the union of gene names;
the inheritanceType draw is consumed only when both parents carry the
gene, and a gene carried by exactly one parent is copied verbatim. -/
def combineGo (d1 d2 : DNA) (rand : ℕ → ℚ) : List String → ℕ → DNA
  | [], _ => []
  | n :: t, i =>
    match getGene d1 n, getGene d2 n with
    | some g1, some g2 => chooseGene g1 g2 n (rand i) :: combineGo d1 d2 rand t (i+1)
    | some g1, none => g1 :: combineGo d1 d2 rand t i
    | none, some g2 => g2 :: combineGo d1 d2 rand t i
    | none, none => combineGo d1 d2 rand t i

/-- DNA.combine (dna.ts 67-108). -/
def combine (d1 d2 : DNA) (rand : ℕ → ℚ) : DNA :=
  combineGo d1 d2 rand (unionNames d1 d2) 0

/-- How many of the listed names are carried by both parents; used to
locate the inheritanceType draw a given gene consumes. -/
def bothCount (d1 d2 : DNA) (l : List String) : ℕ :=
  (l.filter (fun n => (getGene d1 n).isSome && (getGene d2 n).isSome)).length

/-- Index of the inheritanceType draw consumed for name n during
combine: one draw was consumed per earlier name carried by both parents. -/
def drawIndexFor (d1 d2 : DNA) (n : String) : ℕ :=
  bothCount d1 d2 ((unionNames d1 d2).takeWhile (fun m => m != n))

/-- One entry of the standard gene catalog (dna.ts GeneDefinition);
description, minValue and maxValue are omitted: no modelled operation
reads them (createStandard ignores them). -/
structure GeneDefinition where
  name : String
  defaultValue : ℚ
  defaultMutationRate : ℚ
deriving DecidableEq

/-- The fixed catalog DNA.STANDARD_GENES (dna.ts 111-208). -/
def STANDARD_GENES : List GeneDefinition :=
  [ ⟨"size", 1/2, 1/20⟩,
    ⟨"speed", 1/2, 1/10⟩,
    ⟨"metabolism", 1/2, 1/20⟩,
    ⟨"vision", 1/2, 2/25⟩,
    ⟨"intelligence", 3/10, 3/100⟩,
    ⟨"aggression", 3/10, 1/10⟩,
    ⟨"socialBehavior", 1/2, 7/100⟩,
    ⟨"furColor", 1/2, 3/20⟩,
    ⟨"reproductiveUrge", 1/2, 1/10⟩,
    ⟨"lifespan", 1/2, 1/20⟩,
    ⟨"maturityAge", 1/2, 1/20⟩,
    ⟨"friendship", 1/2, 1/10⟩ ]

/-- DNA.createStandard (dna.ts 211-227): every catalog gene is added
with the override value when one is supplied (copied verbatim) and the
default value otherwise, always with the default mutation rate. -/
def createStandard (overrides : List (String × ℚ)) : DNA :=
  STANDARD_GENES.foldl
    (fun d gd =>
      addGene d ⟨gd.name, (overrides.lookup gd.name).getD gd.defaultValue,
                 gd.defaultMutationRate⟩)
    []

end DNA

/-- A grid coordinate (world.ts Position). -/
structure Position where
  x : ℤ
  y : ℤ
deriving DecidableEq

/-- animal.ts AnimalStats. -/
structure AnimalStats where
  health : ℚ
  energy : ℚ
  age : ℚ
  hunger : ℚ
deriving DecidableEq

/-- The per-animal mutable state used by the modelled Animal methods
(animal.ts fields dna, position, stats); the id lives in the world
registry and the world/logger references are passed explicitly. -/
structure AnimalState where
  dna : DNA
  pos : Position
  stats : AnimalStats
deriving DecidableEq

/-- The four cardinal movement directions (animal.ts move). -/
inductive Direction
  | north
  | east
  | south
  | west
deriving DecidableEq

/-- world.ts tile kinds. -/
inductive TileType
  | grass
  | water
  | rock
deriving DecidableEq

/-- world.ts Tile. -/
structure Tile where
  type : TileType
  foodValue : ℚ
deriving DecidableEq

/-- The registry-and-pressure part of World state (world.ts fields
animals, maxPopulation, populationPressure); animals is the list of
registered ids in insertion order (Map keys are unique). -/
structure WorldState where
  animals : List ℕ
  maxPopulation : ℕ
  populationPressure : ℤ
deriving DecidableEq

namespace World

/-- maxPopulation as set by the World constructor (world.ts 293):
Math.floor(width * height * 0.3). -/
def maxPopulationOf (width height : ℕ) : ℕ :=
  (⌊((width * height : ℕ) : ℚ) * (3/10)⌋).toNat

/-- isPositionValid (world.ts 339-342). -/
def isPositionValid (width height : ℕ) (p : Position) : Bool :=
  decide (0 ≤ p.x ∧ p.x < (width : ℤ) ∧ 0 ≤ p.y ∧ p.y < (height : ℤ))

/-- addAnimal (world.ts 344-365): at or above capacity the insert is
refused (and a failed-insert nudge raises the pressure while it is
below 5); otherwise the animal is registered under its fresh id and
populationPressure is recomputed from the new registry size. -/
def addAnimal (w : WorldState) (i : ℕ) : Bool × WorldState :=
  if w.maxPopulation ≤ w.animals.length then
    if w.populationPressure < 5 then
      (false, { w with populationPressure := w.populationPressure + 1 })
    else (false, w)
  else
    let animals := if i ∈ w.animals then w.animals else w.animals ++ [i]
    (true, { w with
               animals := animals,
               populationPressure :=
                 min 10 ⌊((animals.length : ℚ) / (w.maxPopulation : ℚ)) * 10⌋ })

/-- removeAnimal (world.ts 367-370): unconditional delete. -/
def removeAnimal (w : WorldState) (i : ℕ) : WorldState :=
  { w with animals := w.animals.erase i }

/-- Folds addAnimal over a list of ids, also reporting whether every
single insert succeeded. -/
def addAnimals (w : WorldState) (l : List ℕ) : WorldState × Bool :=
  l.foldl (fun acc i =>
    let r := addAnimal acc.1 i
    (r.2, acc.2 && r.1)) (w, true)

/-- The grass regrowth rate of World.update (world.ts 393):
Math.max(0.01, 0.1 - populationPressure * 0.01). -/
def regrowthRate (pressure : ℤ) : ℚ :=
  max (1/100) (1/10 - (pressure : ℚ) * (1/100))

/-- The per-tile regrowth step of World.update (world.ts 395-402): a
grass tile strictly below 10 gains the regrowth rate (with no cap
applied after the addition); other tiles are untouched. -/
def regrowTile (pressure : ℤ) (t : Tile) : Tile :=
  if t.type = TileType.grass ∧ t.foodValue < 10 then
    { t with foodValue := t.foodValue + regrowthRate pressure }
  else t

/-- The regrowth pass of World.update over the whole grid. -/
def regrowGrid (pressure : ℤ) (grid : List (List Tile)) : List (List Tile) :=
  grid.map (fun row => row.map (regrowTile pressure))

end World

namespace Animal

/-- getDNA (animal.ts 42-44): returns this.dna itself — the live gene
map, not a copy. -/
def getDNA (a : AnimalState) : DNA := a.dna

/-- getPosition (animal.ts 46-48): returns a fresh copy of the
position record (object spread). -/
def getPosition (a : AnimalState) : Position := a.pos

/-- getStats (animal.ts 50-52): returns a fresh copy of the stats
record (object spread). -/
def getStats (a : AnimalState) : AnimalStats := a.stats

/-- Value of a named gene with the documented fallback for an absent
gene, the pattern gene ? gene.value : fallback. -/
def geneValD (d : DNA) (n : String) (fallback : ℚ) : ℚ :=
  match DNA.getGene d n with
  | some g => g.value
  | none => fallback

/-- Maturity age (animal.ts isAdult, 244-255): base 25 shifted by the
maturityAge gene into [-10, 10], floored at 15. -/
def maturityAge (a : AnimalState) : ℚ :=
  let modifier :=
    match DNA.getGene a.dna ("maturityAge") with
    | some g => g.value * 20 - 10
    | none => 0
  max 15 (25 + modifier)

/-- isAdult (animal.ts 254): age at least the maturity age. -/
def isAdult (a : AnimalState) : Bool :=
  decide (maturityAge a ≤ a.stats.age)

/-- The clamped one-step target of move (animal.ts 116-132): each
direction clamps only the coordinate it changes, exactly as the
switch does. -/
def stepClamped (width height : ℕ) (p : Position) : Direction → Position
  | Direction.north => { p with y := max 0 (p.y - 1) }
  | Direction.east => { p with x := min ((width : ℤ) - 1) (p.x + 1) }
  | Direction.south => { p with y := min ((height : ℤ) - 1) (p.y + 1) }
  | Direction.west => { p with x := max 0 (p.x - 1) }

/-- move (animal.ts 116-144): when the clamped target is a valid
position the animal moves there and pays 1 energy (with no floor at
0); otherwise nothing changes. -/
def move (width height : ℕ) (a : AnimalState) (dir : Direction) : AnimalState :=
  let p := stepClamped width height a.pos dir
  if World.isPositionValid width height p then
    { a with pos := p,
             stats := { a.stats with energy := a.stats.energy - 1 } }
  else a

/-- The two-sided clamp of an integer coordinate into [lo, hi]. -/
def clampI (v lo hi : ℤ) : ℤ := max lo (min hi v)

/-- Horizontal displacement of a direction. -/
def dirDx : Direction → ℤ
  | Direction.east => 1
  | Direction.west => -1
  | _ => 0

/-- Vertical displacement of a direction. -/
def dirDy : Direction → ℤ
  | Direction.north => -1
  | Direction.south => 1
  | _ => 0

/-- The fluffles default gene overrides installed by the Fluffles
constructor when it is handed an empty DNA (animals/fluffles.ts). -/
def flufflesStandardOverrides : List (String × ℚ) :=
  [ ("size", 3/10), ("speed", 7/10), ("metabolism", 7/10),
    ("vision", 3/5), ("intelligence", 2/5), ("aggression", 1/5),
    ("socialBehavior", 3/5), ("reproductiveUrge", 4/5),
    ("maturityAge", 2/5) ]

/-- The Animal/Fluffles constructor state (animal.ts 20-36 and
animals/fluffles.ts): fresh stats 100/100/0/0, and an empty DNA is
replaced by the standard catalog with fluffles overrides. -/
def mkAnimal (d : DNA) (p : Position) : AnimalState :=
  { dna := if d = [] then DNA.createStandard flufflesStandardOverrides else d,
    pos := p,
    stats := { health := 100, energy := 100, age := 0, hunger := 0 } }

/-- The reproduction success chance (animal.ts 177-181):
max(0.1, reproductiveUrge - populationPressure * 0.08), with fallback
urge 0.5. -/
def reproSuccessChance (self : AnimalState) (w : WorldState) : ℚ :=
  max (1/10) (geneValD self.dna ("reproductiveUrge") (1/2)
              - (w.populationPressure : ℚ) * (2/25))

/-- reproduce (animal.ts 162-216).  u is the success draw, randC the
draw stream of DNA.combine, randM that of DNA.mutate, childId the
offspring's fresh registry id.  Returns the caller's new state, the
world's new registry state and the offspring if any.  As in the
source, the gating checks cost nothing, a probabilistic failure costs
the caller 10 energy, and a success costs 30 energy before the
offspring is submitted to addAnimal — whose refusal yields null with
the cost kept. -/
def reproduce (self partner : AnimalState) (w : WorldState) (childId : ℕ)
    (u : ℚ) (randC randM : ℕ → ℚ) :
    AnimalState × WorldState × Option AnimalState :=
  if isAdult self = false ∨ isAdult partner = false then (self, w, none)
  else if self.stats.energy < 50 ∨ (getStats partner).energy < 50 then
    (self, w, none)
  else if u > reproSuccessChance self w then
    ({ self with stats := { self.stats with energy := self.stats.energy - 10 } },
     w, none)
  else
    let childDNA := DNA.combine self.dna (getDNA partner) randC
    let mutatedDNA := DNA.mutate childDNA randM
    let childPos : Position :=
      ⟨Int.fdiv (self.pos.x + (getPosition partner).x) 2,
       Int.fdiv (self.pos.y + (getPosition partner).y) 2⟩
    let self1 :=
      { self with stats := { self.stats with energy := self.stats.energy - 30 } }
    let offspring := mkAnimal mutatedDNA childPos
    let result := World.addAnimal w childId
    if result.1 then (self1, result.2, some offspring)
    else (self1, result.2, none)

/-- The attack success chance (animal.ts 263-277):
0.3 + aggression*0.4 + max(0, speed - targetSpeed)*0.3 with fallbacks
aggression 0.3 and speed 0.5. -/
def attackSuccessChance (self target : AnimalState) : ℚ :=
  3/10 + geneValD self.dna ("aggression") (3/10) * (2/5)
       + max 0 (geneValD self.dna ("speed") (1/2)
                - geneValD target.dna ("speed") (1/2)) * (3/10)

/-- attack (animal.ts 257-301).  u1 is the success draw, u2 the
energy-gain draw.  Below 20 energy nothing happens; otherwise 15
energy is spent, and on success the attacker gains
30 + Math.floor(u2 * 20) energy capped at 100, loses 40 hunger floored
at 0, and the target dies (is removed from the registry). -/
def attack (self target : AnimalState) (w : WorldState) (targetId : ℕ)
    (u1 u2 : ℚ) : AnimalState × WorldState × Bool :=
  if self.stats.energy < 20 then (self, w, false)
  else
    let self1 :=
      { self with stats := { self.stats with energy := self.stats.energy - 15 } }
    if u1 < attackSuccessChance self target then
      let energyGain : ℚ := 30 + ((⌊u2 * 20⌋ : ℤ) : ℚ)
      ({ self1 with stats :=
           { self1.stats with
             energy := min 100 (self1.stats.energy + energyGain),
             hunger := max 0 (self1.stats.hunger - 40) } },
       World.removeAnimal w targetId, true)
    else (self1, w, false)

/-- The experiment of reading the position accessor and then mutating
the returned object: the spread copy in getPosition means the write
goes to the fresh record, never back to the animal. -/
def readPositionThen (a : AnimalState) (f : Position → Position) :
    Position × AnimalState :=
  (f (getPosition a), a)

/-- The experiment of reading the stats accessor and then mutating the
returned object: the spread copy in getStats keeps the animal intact. -/
def readStatsThen (a : AnimalState) (f : AnimalStats → AnimalStats) :
    AnimalStats × AnimalState :=
  (f (getStats a), a)

/-- The experiment of reading the DNA accessor and then calling
addGene on the returned object: getDNA returns this.dna itself
(animal.ts 42-44, no copy), so the write lands in the animal's live
genome. -/
def readDNAThenAddGene (a : AnimalState) (g : Gene) : DNA × AnimalState :=
  let d := DNA.addGene (getDNA a) g
  (d, { a with dna := d })

end Animal

namespace Simulation

/-- The per-animal disease step of applyDisasterEffects (part of
Simulation, case disease, lines 645-657): with probability
intensity*0.15 the code takes the stats snapshot returned by
animal.getStats() — a spread copy — decrements its health field by
Math.floor(10*intensity), and never writes the snapshot back, so the
animal itself is returned unchanged on both branches. -/
def diseaseTickAnimal (intensity u : ℚ) (a : AnimalState) : AnimalState :=
  if u < intensity * (3/20) then
    let stats := Animal.getStats a
    let _stats1 :=
      { stats with health := stats.health - ((⌊10 * intensity⌋ : ℤ) : ℚ) }
    a
  else a

/-- The disease case of applyDisasterEffects over the animal list,
giving animal number i the draw us i. -/
def diseaseTickGo (intensity : ℚ) (us : ℕ → ℚ) :
    List AnimalState → ℕ → List AnimalState
  | [], _ => []
  | a :: t, i => diseaseTickAnimal intensity (us i) a :: diseaseTickGo intensity us t (i+1)

/-- One disease-disaster tick over all living animals. -/
def diseaseTick (intensity : ℚ) (us : ℕ → ℚ) (animals : List AnimalState) :
    List AnimalState :=
  diseaseTickGo intensity us animals 0

/-- Modelled from the spec: the disease table row of the disaster
engine as the spec states it — each affected animal's live health
stat is actually lowered by floor(10*intensity).  This is what the
claim asserts the code does; it is stated here only to be compared
with diseaseTickAnimal, the faithful translation of the code. -/
def diseaseTickAnimalClaimed (intensity u : ℚ) (a : AnimalState) : AnimalState :=
  if u < intensity * (3/20) then
    { a with stats :=
        { a.stats with health := a.stats.health - ((⌊10 * intensity⌋ : ℤ) : ℚ) } }
  else a

end Simulation

/-! Helper lemmas about the DNA operations. -/

theorem dna_names_cons (g : Gene) (t : DNA) :
    DNA.names (g :: t) = g.name :: DNA.names t := rfl

theorem dna_mutateGene_name (g : Gene) (u v : ℚ) :
    (DNA.mutateGene g u v).name = g.name := by
  unfold DNA.mutateGene
  split <;> rfl

theorem dna_clamp01_bounds (x : ℚ) : 0 ≤ DNA.clamp01 x ∧ DNA.clamp01 x ≤ 1 := by
  unfold DNA.clamp01
  exact ⟨le_max_left 0 _, max_le (by norm_num) (min_le_left 1 x)⟩

theorem dna_mutateGene_bounds (g : Gene) (u v : ℚ)
    (h : 0 ≤ g.value ∧ g.value ≤ 1) :
    0 ≤ (DNA.mutateGene g u v).value ∧ (DNA.mutateGene g u v).value ≤ 1 := by
  unfold DNA.mutateGene
  split
  · exact dna_clamp01_bounds _
  · exact h

theorem dna_mutateGo_names (rand : ℕ → ℚ) (d : DNA) :
    ∀ k : ℕ, DNA.names (DNA.mutateGo rand d k) = DNA.names d := by
  induction d with
  | nil => intro k; rfl
  | cons g t ih =>
      intro k
      simp only [DNA.mutateGo, dna_names_cons, dna_mutateGene_name, ih]

theorem dna_mutateGo_length (rand : ℕ → ℚ) (d : DNA) (k : ℕ) :
    (DNA.mutateGo rand d k).length = d.length := by
  have h := congrArg List.length (dna_mutateGo_names rand d k)
  simpa [DNA.names] using h

theorem dna_mutateGo_get (rand : ℕ → ℚ) (d : DNA) :
    ∀ (k n : ℕ) (h1 : n < d.length) (h2 : n < (DNA.mutateGo rand d k).length),
      (DNA.mutateGo rand d k).get ⟨n, h2⟩ =
        DNA.mutateGene (d.get ⟨n, h1⟩) (rand (DNA.mutStart rand d k n))
          (rand (DNA.mutStart rand d k n + 1)) := by
  induction d with
  | nil => intro k n h1 h2; exact absurd h1 (by simp)
  | cons g t ih =>
      intro k n h1 h2
      cases n with
      | zero => simp [DNA.mutateGo, DNA.mutStart]
      | succ m =>
          simp only [DNA.mutateGo, DNA.mutStart, List.get]
          exact ih _ m (Nat.lt_of_succ_lt_succ h1) _

theorem dna_mutateGo_bounds (rand : ℕ → ℚ) :
    ∀ (d : DNA) (k : ℕ),
      (∀ g ∈ d, 0 ≤ g.value ∧ g.value ≤ 1) →
      ∀ g1 ∈ DNA.mutateGo rand d k, 0 ≤ g1.value ∧ g1.value ≤ 1 := by
  intro d
  induction d with
  | nil =>
      intro k _ g1 h
      simp [DNA.mutateGo] at h
  | cons g t ih =>
      intro k hd g1 hmem
      rw [DNA.mutateGo, List.mem_cons] at hmem
      rcases hmem with h | h
      · subst h
        exact dna_mutateGene_bounds _ _ _ (hd g (List.mem_cons_self g t))
      · exact ih _ (fun x hx => hd x (List.mem_cons_of_mem _ hx)) g1 h

/-- C4: mutate keeps exactly the gene names (hence the count); gene
number n is rewritten by mutateGene using the draw located by
mutStart — mutated into the clamped perturbation exactly when its
shouldMutate draw is below its own mutation rate, otherwise copied —
and on a well-formed genome (all gene values in [0,1], as the data
model requires) every resulting gene value stays in [0,1]. -/
theorem mutate_contract (d : DNA) (rand : ℕ → ℚ) :
    DNA.names (DNA.mutate d rand) = DNA.names d ∧
    (DNA.mutate d rand).length = d.length ∧
    (∀ (n : ℕ) (h1 : n < d.length) (h2 : n < (DNA.mutate d rand).length),
      (DNA.mutate d rand).get ⟨n, h2⟩ =
        DNA.mutateGene (d.get ⟨n, h1⟩) (rand (DNA.mutStart rand d 0 n))
          (rand (DNA.mutStart rand d 0 n + 1))) ∧
    ((∀ g ∈ d, 0 ≤ g.value ∧ g.value ≤ 1) →
      ∀ g ∈ DNA.mutate d rand, 0 ≤ g.value ∧ g.value ≤ 1) :=
  ⟨dna_mutateGo_names rand d 0, dna_mutateGo_length rand d 0,
   fun n h1 h2 => dna_mutateGo_get rand d 0 n h1 h2,
   fun hb => dna_mutateGo_bounds rand d 0 hb⟩

/-- Witness for mutate_contract at a concrete genome and draw stream. -/
theorem mutate_contract_wit :
    (⟨"a", 2/5, 1⟩ : Gene) ∈ DNA.mutate [⟨"a", 1/2, 1⟩] (fun _ => 0) ∧
    (0 ≤ (Gene.mk "a" (2/5) 1).value ∧ (Gene.mk "a" (2/5) 1).value ≤ 1) := by
  refine ⟨?_, ?_⟩
  · norm_num [DNA.mutate, DNA.mutateGo, DNA.mutateGene, DNA.clamp01, min_def, max_def]
  · exact (mutate_contract [⟨"a", 1/2, 1⟩] (fun _ => 0)).2.2.2 (by norm_num) _
      (by norm_num [DNA.mutate, DNA.mutateGo, DNA.mutateGene, DNA.clamp01, min_def, max_def])

theorem dna_getGene_name_mem (d : DNA) {n : String} {g : Gene}
    (h : DNA.getGene d n = some g) : g.name = n ∧ g ∈ d := by
  induction d with
  | nil => cases h
  | cons a t ih =>
      simp only [DNA.getGene] at h
      by_cases hc : a.name = n
      · rw [if_pos hc] at h
        injection h with h
        subst h
        exact ⟨hc, List.mem_cons_self a t⟩
      · rw [if_neg hc] at h
        obtain ⟨h1, h2⟩ := ih h
        exact ⟨h1, List.mem_cons_of_mem _ h2⟩

theorem dna_getGene_eq_none_iff (d : DNA) (n : String) :
    DNA.getGene d n = none ↔ n ∉ DNA.names d := by
  induction d with
  | nil => simp [DNA.getGene, DNA.names]
  | cons a t ih =>
      by_cases hc : a.name = n
      · simp [DNA.getGene, hc, dna_names_cons]
      · simp [DNA.getGene, hc, dna_names_cons, ih, Ne.symm hc]

theorem dna_mem_names_of_getGene {d : DNA} {n : String} {g : Gene}
    (h : DNA.getGene d n = some g) : n ∈ DNA.names d := by
  obtain ⟨h1, h2⟩ := dna_getGene_name_mem d h
  exact h1 ▸ List.mem_map_of_mem Gene.name h2

theorem dna_chooseGene_name {g1 g2 : Gene} {n : String}
    (h1 : g1.name = n) (h2 : g2.name = n) (u : ℚ) :
    (DNA.chooseGene g1 g2 n u).name = n := by
  unfold DNA.chooseGene
  split_ifs
  · exact h1
  · exact h2
  · rfl

theorem dna_combineGo_names (d1 d2 : DNA) (rand : ℕ → ℚ) :
    ∀ (l : List String) (i : ℕ),
      (∀ n ∈ l, n ∈ DNA.names d1 ∨ n ∈ DNA.names d2) →
      DNA.names (DNA.combineGo d1 d2 rand l i) = l := by
  intro l
  induction l with
  | nil => intro i _; rfl
  | cons m t ih =>
      intro i hl
      have hm := hl m (List.mem_cons_self m t)
      have ht : ∀ n ∈ t, n ∈ DNA.names d1 ∨ n ∈ DNA.names d2 :=
        fun n hn => hl n (List.mem_cons_of_mem m hn)
      rcases h1 : DNA.getGene d1 m with _ | g1 <;>
        rcases h2 : DNA.getGene d2 m with _ | g2
      · exfalso
        rcases hm with h | h
        · exact (dna_getGene_eq_none_iff d1 m).mp h1 h
        · exact (dna_getGene_eq_none_iff d2 m).mp h2 h
      · have hn2 := (dna_getGene_name_mem d2 h2).1
        simp only [DNA.combineGo, h1, h2, dna_names_cons, hn2, ih i ht]
      · have hn1 := (dna_getGene_name_mem d1 h1).1
        simp only [DNA.combineGo, h1, h2, dna_names_cons, hn1, ih i ht]
      · have hn1 := (dna_getGene_name_mem d1 h1).1
        have hn2 := (dna_getGene_name_mem d2 h2).1
        simp only [DNA.combineGo, h1, h2, dna_names_cons,
          dna_chooseGene_name hn1 hn2, ih (i+1) ht]

theorem dna_mem_unionNames (d1 d2 : DNA) (n : String) :
    n ∈ DNA.unionNames d1 d2 ↔ (n ∈ DNA.names d1 ∨ n ∈ DNA.names d2) := by
  simp only [DNA.unionNames, List.mem_append, List.mem_filter, decide_eq_true_eq]
  constructor
  · rintro (h | ⟨h, _⟩)
    · exact Or.inl h
    · exact Or.inr h
  · rintro (h | h)
    · exact Or.inl h
    · by_cases h1 : n ∈ DNA.names d1
      · exact Or.inl h1
      · exact Or.inr ⟨h, h1⟩

theorem dna_combineGo_getGene_left (d1 d2 : DNA) (rand : ℕ → ℚ) (n : String)
    (g1 : Gene) (hg1 : DNA.getGene d1 n = some g1)
    (hg2 : DNA.getGene d2 n = none) :
    ∀ (l : List String) (i : ℕ), n ∈ l →
      DNA.getGene (DNA.combineGo d1 d2 rand l i) n = some g1 := by
  intro l
  induction l with
  | nil => intro i h; cases h
  | cons m t ih =>
      intro i hmem
      by_cases hmn : m = n
      · subst hmn
        have hn1 := (dna_getGene_name_mem d1 hg1).1
        simp only [DNA.combineGo, hg1, hg2]
        simp [DNA.getGene, hn1]
      · have hmem' : n ∈ t := by
          rcases List.mem_cons.mp hmem with h | h
          · exact absurd h.symm hmn
          · exact h
        rcases h1 : DNA.getGene d1 m with _ | gm1 <;>
          rcases h2 : DNA.getGene d2 m with _ | gm2
        · simp only [DNA.combineGo, h1, h2]
          exact ih i hmem'
        · have hn2 := (dna_getGene_name_mem d2 h2).1
          simp only [DNA.combineGo, h1, h2, DNA.getGene, hn2, if_neg hmn]
          exact ih i hmem'
        · have hn1 := (dna_getGene_name_mem d1 h1).1
          simp only [DNA.combineGo, h1, h2, DNA.getGene, hn1, if_neg hmn]
          exact ih i hmem'
        · have hn1 := (dna_getGene_name_mem d1 h1).1
          have hn2 := (dna_getGene_name_mem d2 h2).1
          simp only [DNA.combineGo, h1, h2, DNA.getGene,
            dna_chooseGene_name hn1 hn2, if_neg hmn]
          exact ih (i+1) hmem'

theorem dna_combineGo_getGene_right (d1 d2 : DNA) (rand : ℕ → ℚ) (n : String)
    (g2 : Gene) (hg1 : DNA.getGene d1 n = none)
    (hg2 : DNA.getGene d2 n = some g2) :
    ∀ (l : List String) (i : ℕ), n ∈ l →
      DNA.getGene (DNA.combineGo d1 d2 rand l i) n = some g2 := by
  intro l
  induction l with
  | nil => intro i h; cases h
  | cons m t ih =>
      intro i hmem
      by_cases hmn : m = n
      · subst hmn
        have hn2 := (dna_getGene_name_mem d2 hg2).1
        simp only [DNA.combineGo, hg1, hg2]
        simp [DNA.getGene, hn2]
      · have hmem' : n ∈ t := by
          rcases List.mem_cons.mp hmem with h | h
          · exact absurd h.symm hmn
          · exact h
        rcases h1 : DNA.getGene d1 m with _ | gm1 <;>
          rcases h2 : DNA.getGene d2 m with _ | gm2
        · simp only [DNA.combineGo, h1, h2]
          exact ih i hmem'
        · have hn2 := (dna_getGene_name_mem d2 h2).1
          simp only [DNA.combineGo, h1, h2, DNA.getGene, hn2, if_neg hmn]
          exact ih i hmem'
        · have hn1 := (dna_getGene_name_mem d1 h1).1
          simp only [DNA.combineGo, h1, h2, DNA.getGene, hn1, if_neg hmn]
          exact ih i hmem'
        · have hn1 := (dna_getGene_name_mem d1 h1).1
          have hn2 := (dna_getGene_name_mem d2 h2).1
          simp only [DNA.combineGo, h1, h2, DNA.getGene,
            dna_chooseGene_name hn1 hn2, if_neg hmn]
          exact ih (i+1) hmem'

theorem dna_combineGo_getGene_both (d1 d2 : DNA) (rand : ℕ → ℚ) (n : String)
    (g1 g2 : Gene) (hg1 : DNA.getGene d1 n = some g1)
    (hg2 : DNA.getGene d2 n = some g2) :
    ∀ (l : List String) (i : ℕ), n ∈ l →
      DNA.getGene (DNA.combineGo d1 d2 rand l i) n =
        some (DNA.chooseGene g1 g2 n
          (rand (i + DNA.bothCount d1 d2 (l.takeWhile (fun m => m != n))))) := by
  intro l
  induction l with
  | nil => intro i h; cases h
  | cons m t ih =>
      intro i hmem
      by_cases hmn : m = n
      · subst hmn
        have hn1 := (dna_getGene_name_mem d1 hg1).1
        have hn2 := (dna_getGene_name_mem d2 hg2).1
        simp only [DNA.combineGo, hg1, hg2]
        simp [DNA.getGene, dna_chooseGene_name hn1 hn2, DNA.bothCount]
      · have hmem' : n ∈ t := by
          rcases List.mem_cons.mp hmem with h | h
          · exact absurd h.symm hmn
          · exact h
        have htw : (m :: t).takeWhile (fun x => x != n) =
            m :: t.takeWhile (fun x => x != n) := by
          simp [List.takeWhile_cons, hmn]
        rcases h1 : DNA.getGene d1 m with _ | gm1 <;>
          rcases h2 : DNA.getGene d2 m with _ | gm2
        · have hcnt : i + DNA.bothCount d1 d2 ((m :: t).takeWhile (fun x => x != n)) =
              i + DNA.bothCount d1 d2 (t.takeWhile (fun x => x != n)) := by
            simp [htw, DNA.bothCount, List.filter_cons, h1, h2]
          rw [hcnt]
          simp only [DNA.combineGo, h1, h2]
          exact ih i hmem'
        · have hn2 := (dna_getGene_name_mem d2 h2).1
          have hcnt : i + DNA.bothCount d1 d2 ((m :: t).takeWhile (fun x => x != n)) =
              i + DNA.bothCount d1 d2 (t.takeWhile (fun x => x != n)) := by
            simp [htw, DNA.bothCount, List.filter_cons, h1, h2]
          rw [hcnt]
          simp only [DNA.combineGo, h1, h2, DNA.getGene, hn2, if_neg hmn]
          exact ih i hmem'
        · have hn1 := (dna_getGene_name_mem d1 h1).1
          have hcnt : i + DNA.bothCount d1 d2 ((m :: t).takeWhile (fun x => x != n)) =
              i + DNA.bothCount d1 d2 (t.takeWhile (fun x => x != n)) := by
            simp [htw, DNA.bothCount, List.filter_cons, h1, h2]
          rw [hcnt]
          simp only [DNA.combineGo, h1, h2, DNA.getGene, hn1, if_neg hmn]
          exact ih i hmem'
        · have hn1 := (dna_getGene_name_mem d1 h1).1
          have hn2 := (dna_getGene_name_mem d2 h2).1
          have hcnt : i + DNA.bothCount d1 d2 ((m :: t).takeWhile (fun x => x != n)) =
              (i + 1) + DNA.bothCount d1 d2 (t.takeWhile (fun x => x != n)) := by
            simp only [htw, DNA.bothCount, List.filter_cons, h1, h2,
              Option.isSome_some, Bool.and_self, if_pos]
            simp [List.length_cons]
            omega
          rw [hcnt]
          simp only [DNA.combineGo, h1, h2, DNA.getGene,
            dna_chooseGene_name hn1 hn2, if_neg hmn]
          exact ih (i+1) hmem'

/-- C5: combine yields exactly the union of the parents' gene-name
sets (so the result set is never smaller than either parent's); a gene
present in exactly one parent is looked up unchanged in the result;
and a gene present in both is decided by the single inheritanceType
draw located by drawIndexFor, by the rule of chooseGene: below 0.4 the
first parent's gene, below 0.8 the second parent's, otherwise the
field-wise average. -/
theorem combine_contract (d1 d2 : DNA) (rand : ℕ → ℚ) :
    (∀ n, n ∈ DNA.names (DNA.combine d1 d2 rand) ↔
       (n ∈ DNA.names d1 ∨ n ∈ DNA.names d2)) ∧
    (∀ n g1, DNA.getGene d1 n = some g1 → DNA.getGene d2 n = none →
       DNA.getGene (DNA.combine d1 d2 rand) n = some g1) ∧
    (∀ n g2, DNA.getGene d1 n = none → DNA.getGene d2 n = some g2 →
       DNA.getGene (DNA.combine d1 d2 rand) n = some g2) ∧
    (∀ n g1 g2, DNA.getGene d1 n = some g1 → DNA.getGene d2 n = some g2 →
       DNA.getGene (DNA.combine d1 d2 rand) n =
         some (DNA.chooseGene g1 g2 n (rand (DNA.drawIndexFor d1 d2 n)))) := by
  refine ⟨?_, ?_, ?_, ?_⟩
  · intro n
    rw [show DNA.names (DNA.combine d1 d2 rand) = DNA.unionNames d1 d2 from
      dna_combineGo_names d1 d2 rand _ 0
        (fun m hm => (dna_mem_unionNames d1 d2 m).mp hm)]
    exact dna_mem_unionNames d1 d2 n
  · intro n g1 h1 h2
    exact dna_combineGo_getGene_left d1 d2 rand n g1 h1 h2 _ 0
      ((dna_mem_unionNames d1 d2 n).mpr (Or.inl (dna_mem_names_of_getGene h1)))
  · intro n g2 h1 h2
    exact dna_combineGo_getGene_right d1 d2 rand n g2 h1 h2 _ 0
      ((dna_mem_unionNames d1 d2 n).mpr (Or.inr (dna_mem_names_of_getGene h2)))
  · intro n g1 g2 h1 h2
    have h := dna_combineGo_getGene_both d1 d2 rand n g1 g2 h1 h2
      (DNA.unionNames d1 d2) 0
      ((dna_mem_unionNames d1 d2 n).mpr (Or.inl (dna_mem_names_of_getGene h1)))
    simpa [DNA.combine, DNA.drawIndexFor] using h

/-- Witness for combine_contract on two concrete parents: gene a is
carried only by the first parent and is copied verbatim, gene c only
by the second, and gene b by both, where the inheritanceType draw 1/2
selects the second parent's gene. -/
theorem combine_contract_wit :
    DNA.getGene (DNA.combine [⟨"a", 1, 1/10⟩, ⟨"b", 0, 1/5⟩]
        [⟨"b", 1, 2/5⟩, ⟨"c", 1/2, 1⟩] (fun _ => 1/2)) ("a") =
      some ⟨"a", 1, 1/10⟩ ∧
    DNA.getGene (DNA.combine [⟨"a", 1, 1/10⟩, ⟨"b", 0, 1/5⟩]
        [⟨"b", 1, 2/5⟩, ⟨"c", 1/2, 1⟩] (fun _ => 1/2)) ("c") =
      some ⟨"c", 1/2, 1⟩ ∧
    DNA.getGene (DNA.combine [⟨"a", 1, 1/10⟩, ⟨"b", 0, 1/5⟩]
        [⟨"b", 1, 2/5⟩, ⟨"c", 1/2, 1⟩] (fun _ => 1/2)) ("b") =
      some (DNA.chooseGene ⟨"b", 0, 1/5⟩ ⟨"b", 1, 2/5⟩ ("b")
        ((fun _ => (1/2 : ℚ))
          (DNA.drawIndexFor [⟨"a", 1, 1/10⟩, ⟨"b", 0, 1/5⟩]
            [⟨"b", 1, 2/5⟩, ⟨"c", 1/2, 1⟩] ("b")))) := by
  refine ⟨?_, ?_, ?_⟩
  · exact (combine_contract [⟨"a", 1, 1/10⟩, ⟨"b", 0, 1/5⟩]
      [⟨"b", 1, 2/5⟩, ⟨"c", 1/2, 1⟩] (fun _ => 1/2)).2.1 ("a") _ rfl rfl
  · exact (combine_contract [⟨"a", 1, 1/10⟩, ⟨"b", 0, 1/5⟩]
      [⟨"b", 1, 2/5⟩, ⟨"c", 1/2, 1⟩] (fun _ => 1/2)).2.2.1 ("c") _ rfl rfl
  · exact (combine_contract [⟨"a", 1, 1/10⟩, ⟨"b", 0, 1/5⟩]
      [⟨"b", 1, 2/5⟩, ⟨"c", 1/2, 1⟩] (fun _ => 1/2)).2.2.2 ("b") _ _ rfl rfl

/-! Movement. -/

theorem animal_move_spec (width height : ℕ) (a : AnimalState) (dir : Direction)
    (h : World.isPositionValid width height a.pos = true) :
    (Animal.move width height a dir).pos =
      ⟨Animal.clampI (a.pos.x + Animal.dirDx dir) 0 ((width : ℤ) - 1),
       Animal.clampI (a.pos.y + Animal.dirDy dir) 0 ((height : ℤ) - 1)⟩ ∧
    (Animal.move width height a dir).stats.energy = a.stats.energy - 1 ∧
    (Animal.move width height a dir).stats.health = a.stats.health ∧
    (Animal.move width height a dir).stats.hunger = a.stats.hunger ∧
    (Animal.move width height a dir).stats.age = a.stats.age ∧
    (Animal.move width height a dir).dna = a.dna := by
  simp only [World.isPositionValid, decide_eq_true_eq] at h
  obtain ⟨hx0, hxw, hy0, hyh⟩ := h
  have hvalid : World.isPositionValid width height
      (Animal.stepClamped width height a.pos dir) = true := by
    cases dir <;> simp [Animal.stepClamped, World.isPositionValid] <;> omega
  have hmove : Animal.move width height a dir =
      { a with pos := Animal.stepClamped width height a.pos dir,
               stats := { a.stats with energy := a.stats.energy - 1 } } := by
    simp [Animal.move, hvalid]
  rw [hmove]
  refine ⟨?_, rfl, rfl, rfl, rfl, rfl⟩
  cases dir <;>
    simp [Animal.stepClamped, Animal.clampI, Animal.dirDx, Animal.dirDy,
      Position.mk.injEq] <;>
    omega

/-- C9: from any in-bounds position, move goes to the old position
stepped once in the chosen cardinal direction and clamped into the
grid (it may therefore stay in place at an edge), and every such
invocation deducts exactly 1 energy, including when the clamped
target equals the original position. -/
theorem move_contract (width height : ℕ) (a : AnimalState) (dir : Direction)
    (h : World.isPositionValid width height a.pos = true) :
    (Animal.move width height a dir).pos =
      ⟨Animal.clampI (a.pos.x + Animal.dirDx dir) 0 ((width : ℤ) - 1),
       Animal.clampI (a.pos.y + Animal.dirDy dir) 0 ((height : ℤ) - 1)⟩ ∧
    (Animal.move width height a dir).stats.energy = a.stats.energy - 1 :=
  ⟨(animal_move_spec width height a dir h).1,
   (animal_move_spec width height a dir h).2.1⟩

/-- Witness for move_contract: a north move from the corner (0,0) of a
5 by 5 grid clamps in place and still costs the energy point. -/
theorem move_contract_wit :
    (Animal.move 5 5 ⟨[], ⟨0, 0⟩, ⟨100, 100, 0, 0⟩⟩ Direction.north).pos =
      ⟨Animal.clampI ((0 : ℤ) + Animal.dirDx Direction.north) 0 ((5 : ℤ) - 1),
       Animal.clampI ((0 : ℤ) + Animal.dirDy Direction.north) 0 ((5 : ℤ) - 1)⟩ ∧
    (Animal.move 5 5 ⟨[], ⟨0, 0⟩, ⟨100, 100, 0, 0⟩⟩ Direction.north).stats.energy =
      (100 : ℚ) - 1 :=
  move_contract 5 5 ⟨[], ⟨0, 0⟩, ⟨100, 100, 0, 0⟩⟩ Direction.north (by decide)

/-- C1 counterexample: the documented bounds do not survive every
operation.  A move from energy 1/2 leaves negative energy (move has no
floor at 0); regrowth pushes a grass tile at 199/20 above the cap 10
(the guard only checks the value before adding); and createStandard
with the override 3/2 for size stores the out-of-range value 3/2
verbatim. -/
theorem inv_bounds_cex :
    (Animal.move 5 5 ⟨[], ⟨0, 0⟩, ⟨100, 1/2, 0, 0⟩⟩ Direction.north).stats.energy < 0 ∧
    10 < (World.regrowTile 0 ⟨TileType.grass, 199/20⟩).foodValue ∧
    DNA.getGene (DNA.createStandard [("size", 3/2)]) ("size") =
      some ⟨"size", 3/2, 1/20⟩ ∧
    (1 : ℚ) < 3/2 := by
  refine ⟨?_, ?_, rfl, by norm_num⟩
  · norm_num [Animal.move, Animal.stepClamped, World.isPositionValid]
  · norm_num [World.regrowTile, World.regrowthRate, max_def]

set_option maxHeartbeats 1600000 in
/-- C1 amended: what the code guarantees instead.  A move from an
in-bounds position costs exactly 1 energy, so energy never drops below
-1 from a nonnegative start (but can go below 0); a grass tile with
foodValue in [0,10] stays nonnegative and below 10 plus the regrowth
rate after one regrowth step, the rate itself being at most 1/10 for
nonnegative pressure (so the cap can be exceeded, by less than the
rate); and createStandard stores for every catalog gene exactly the
override value when one is supplied — unclamped — and otherwise the
default value, all of which lie in [0,1], always with the default
mutation rate. -/
theorem inv_bounds_amended :
    (∀ (width height : ℕ) (a : AnimalState) (dir : Direction),
       World.isPositionValid width height a.pos = true →
       (Animal.move width height a dir).stats.energy = a.stats.energy - 1 ∧
       (0 ≤ a.stats.energy → (-1 : ℚ) ≤ (Animal.move width height a dir).stats.energy)) ∧
    (∀ (p : ℤ) (t : Tile), 0 ≤ p → 0 ≤ t.foodValue → t.foodValue ≤ 10 →
       0 ≤ (World.regrowTile p t).foodValue ∧
       (World.regrowTile p t).foodValue ≤ 10 + World.regrowthRate p ∧
       World.regrowthRate p ≤ 1/10) ∧
    (∀ (overrides : List (String × ℚ)) (gd : DNA.GeneDefinition),
       gd ∈ DNA.STANDARD_GENES →
       DNA.getGene (DNA.createStandard overrides) gd.name =
         some ⟨gd.name, (overrides.lookup gd.name).getD gd.defaultValue,
               gd.defaultMutationRate⟩) ∧
    (∀ gd ∈ DNA.STANDARD_GENES, 0 ≤ gd.defaultValue ∧ gd.defaultValue ≤ 1) := by
  refine ⟨?_, ?_, ?_, ?_⟩
  · intro width height a dir h
    have he := (animal_move_spec width height a dir h).2.1
    refine ⟨he, fun h0 => ?_⟩
    rw [he]
    linarith
  · intro p t hp h0 h10
    have hrlo : (1/100 : ℚ) ≤ World.regrowthRate p := le_max_left _ _
    have hrhi : World.regrowthRate p ≤ 1/10 := by
      unfold World.regrowthRate
      have hpc : (0 : ℚ) ≤ (p : ℚ) := by exact_mod_cast hp
      apply max_le
      · norm_num
      · nlinarith
    unfold World.regrowTile
    split_ifs with hc
    · refine ⟨?_, ?_, hrhi⟩
      · dsimp only
        linarith
      · dsimp only
        linarith [hc.2]
    · exact ⟨h0, by linarith, hrhi⟩
  · intro overrides gd hgd
    simp only [DNA.STANDARD_GENES, List.mem_cons, List.not_mem_nil, or_false] at hgd
    rcases hgd with rfl | rfl | rfl | rfl | rfl | rfl | rfl | rfl | rfl | rfl | rfl | rfl <;>
      rfl
  · intro gd hgd
    simp only [DNA.STANDARD_GENES, List.mem_cons, List.not_mem_nil, or_false] at hgd
    rcases hgd with rfl | rfl | rfl | rfl | rfl | rfl | rfl | rfl | rfl | rfl | rfl | rfl <;>
      norm_num

/-- Witness for inv_bounds_amended: the regrowth part at pressure 0 on
a grass tile holding 5 food. -/
theorem inv_bounds_wit :
    0 ≤ (World.regrowTile 0 ⟨TileType.grass, 5⟩).foodValue ∧
    (World.regrowTile 0 ⟨TileType.grass, 5⟩).foodValue ≤ 10 + World.regrowthRate 0 ∧
    World.regrowthRate 0 ≤ 1/10 :=
  inv_bounds_amended.2.1 0 ⟨TileType.grass, 5⟩ (by norm_num) (by norm_num) (by norm_num)

/-! Disaster engine and accessors. -/

theorem sim_diseaseTickGo_id (intensity : ℚ) (us : ℕ → ℚ) :
    ∀ (l : List AnimalState) (i : ℕ),
      Simulation.diseaseTickGo intensity us l i = l := by
  intro l
  induction l with
  | nil => intro i; rfl
  | cons a t ih =>
      intro i
      have ha : Simulation.diseaseTickAnimal intensity (us i) a = a := by
        simp [Simulation.diseaseTickAnimal]
      simp only [Simulation.diseaseTickGo, ha, ih]

/-- C2: the disease disaster's per-tick effect is a no-op on the live
animals.  The code decrements the health field of the snapshot
returned by getStats (a spread copy) and never writes it back, so
every animal is returned unchanged — whereas the claimed behavior
(modelled by diseaseTickAnimalClaimed from the spec table) would take
an affected animal of health 100 to health 90 at intensity 1; the
faithful translation leaves it at 100. -/
theorem disease_noop_thm :
    (∀ (intensity u : ℚ) (a : AnimalState),
       Simulation.diseaseTickAnimal intensity u a = a) ∧
    (∀ (intensity : ℚ) (us : ℕ → ℚ) (animals : List AnimalState),
       Simulation.diseaseTick intensity us animals = animals) ∧
    (Simulation.diseaseTickAnimalClaimed 1 0
       ⟨[], ⟨0, 0⟩, ⟨100, 100, 0, 0⟩⟩).stats.health = 90 ∧
    (Simulation.diseaseTickAnimal 1 0
       ⟨[], ⟨0, 0⟩, ⟨100, 100, 0, 0⟩⟩).stats.health = 100 := by
  refine ⟨?_, ?_, ?_, ?_⟩
  · intro intensity u a
    simp [Simulation.diseaseTickAnimal]
  · intro intensity us animals
    exact sim_diseaseTickGo_id intensity us animals 0
  · norm_num [Simulation.diseaseTickAnimalClaimed]
  · norm_num [Simulation.diseaseTickAnimal]

/-- C8 counterexample: reading the genome through getDNA and mutating
the returned object does change the live agent, because getDNA hands
out the genome itself rather than a copy: after addGene through the
accessor the agent's genome differs from the original. -/
theorem accessor_copies_cex :
    (Animal.readDNAThenAddGene ⟨[⟨"size", 1/2, 1/20⟩], ⟨0, 0⟩, ⟨100, 100, 0, 0⟩⟩
        ⟨"extra", 1, 1/10⟩).2 ≠
      ⟨[⟨"size", 1/2, 1/20⟩], ⟨0, 0⟩, ⟨100, 100, 0, 0⟩⟩ := by
  simp [Animal.readDNAThenAddGene, Animal.getDNA, DNA.addGene]

/-- C8 amended: getPosition and getStats return independent copies, so
mutating the returned record leaves the agent exactly as it was; but
getDNA returns the live genome, so an addGene through it lands in the
agent's own genome. -/
theorem accessor_copies_amended :
    (∀ (a : AnimalState) (f : Position → Position),
       (Animal.readPositionThen a f).2 = a ∧
       (Animal.readPositionThen a f).1 = f a.pos) ∧
    (∀ (a : AnimalState) (f : AnimalStats → AnimalStats),
       (Animal.readStatsThen a f).2 = a ∧
       (Animal.readStatsThen a f).1 = f a.stats) ∧
    (∀ (a : AnimalState) (g : Gene),
       (Animal.readDNAThenAddGene a g).2.dna = DNA.addGene a.dna g ∧
       (Animal.readDNAThenAddGene a g).1 = DNA.addGene a.dna g) :=
  ⟨fun _ _ => ⟨rfl, rfl⟩, fun _ _ => ⟨rfl, rfl⟩, fun _ _ => ⟨rfl, rfl⟩⟩

/-- C10: removeAnimal never touches populationPressure (or the
capacity), so the pressure can stay stale: in a capacity-3 world
filled to pressure 10, removing two animals leaves pressure 10 while
the addAnimal formula at the remaining size 1 would give 3. -/
theorem removeAnimal_pressure_frame :
    (∀ (w : WorldState) (i : ℕ),
       (World.removeAnimal w i).populationPressure = w.populationPressure ∧
       (World.removeAnimal w i).maxPopulation = w.maxPopulation ∧
       (World.removeAnimal w i).animals = w.animals.erase i) ∧
    ((World.removeAnimal (World.removeAnimal
        (World.addAnimals ⟨[], 3, 0⟩ [0, 1, 2]).1 0) 1).populationPressure = 10 ∧
     (World.removeAnimal (World.removeAnimal
        (World.addAnimals ⟨[], 3, 0⟩ [0, 1, 2]).1 0) 1).animals.length = 1 ∧
     min 10 ⌊(((World.removeAnimal (World.removeAnimal
        (World.addAnimals ⟨[], 3, 0⟩ [0, 1, 2]).1 0) 1).animals.length : ℚ)
        / (3 : ℚ)) * 10⌋ = (3 : ℤ) ∧
     (3 : ℤ) < 10) := by
  refine ⟨fun w i => ⟨rfl, rfl, rfl⟩, ?_⟩
  norm_num [World.addAnimals, World.addAnimal, World.removeAnimal, List.erase]

set_option maxHeartbeats 1600000 in
/-- C7: addAnimal at or above capacity returns false and leaves the
registry unchanged; below capacity with a fresh id it inserts the
animal and recomputes populationPressure as
min(10, floor(newSize/maxPopulation*10)); and in a 10 by 10 world the
constructor capacity is floor(100*0.3) = 30, 30 successive inserts
into an empty such registry all succeed, and the 31st returns false. -/
theorem addAnimal_contract :
    (∀ (w : WorldState) (i : ℕ), w.maxPopulation ≤ w.animals.length →
       (World.addAnimal w i).1 = false ∧
       (World.addAnimal w i).2.animals = w.animals) ∧
    (∀ (w : WorldState) (i : ℕ),
       w.animals.length < w.maxPopulation → i ∉ w.animals →
       (World.addAnimal w i).1 = true ∧
       (World.addAnimal w i).2.animals = w.animals ++ [i] ∧
       (World.addAnimal w i).2.populationPressure =
         min 10 ⌊(((w.animals.length + 1 : ℕ) : ℚ) / (w.maxPopulation : ℚ)) * 10⌋) ∧
    World.maxPopulationOf 10 10 = 30 ∧
    (World.addAnimals ⟨[], 30, 0⟩
       [0, 1, 2, 3, 4, 5, 6, 7, 8, 9, 10, 11, 12, 13, 14, 15, 16, 17, 18, 19,
        20, 21, 22, 23, 24, 25, 26, 27, 28, 29]).2 = true ∧
    (World.addAnimal (World.addAnimals ⟨[], 30, 0⟩
       [0, 1, 2, 3, 4, 5, 6, 7, 8, 9, 10, 11, 12, 13, 14, 15, 16, 17, 18, 19,
        20, 21, 22, 23, 24, 25, 26, 27, 28, 29]).1 30).1 = false := by
  refine ⟨?_, ?_, ?_, ?_, ?_⟩
  case refine_3 =>
    norm_num [World.maxPopulationOf]
    decide
  · intro w i h
    unfold World.addAnimal
    rw [if_pos h]
    split_ifs <;> exact ⟨rfl, rfl⟩
  · intro w i h hi
    unfold World.addAnimal
    rw [if_neg (by omega)]
    refine ⟨rfl, ?_, ?_⟩
    · simp [hi]
    · simp [hi, List.length_append]
  · norm_num [World.addAnimals, World.addAnimal]
  · norm_num [World.addAnimals, World.addAnimal]

/-- Witness for addAnimal_contract: a world of capacity 1 already
holding one animal refuses the next insert and keeps its registry. -/
theorem addAnimal_contract_wit :
    (World.addAnimal ⟨[5], 1, 0⟩ 7).1 = false ∧
    (World.addAnimal ⟨[5], 1, 0⟩ 7).2.animals = [5] :=
  addAnimal_contract.1 ⟨[5], 1, 0⟩ 7 (by norm_num)

/-! Reproduction and attack. -/

theorem dna_mutate_ne_nil {d : DNA} (rand : ℕ → ℚ) (h : d ≠ []) :
    DNA.mutate d rand ≠ [] := by
  intro hnil
  have hl := dna_mutateGo_length rand d 0
  rw [show DNA.mutateGo rand d 0 = ([] : DNA) from hnil] at hl
  exact h (List.eq_nil_of_length_eq_zero hl.symm)

theorem dna_combine_ne_nil {d1 : DNA} (d2 : DNA) (rand : ℕ → ℚ) (h : d1 ≠ []) :
    DNA.combine d1 d2 rand ≠ [] := by
  intro hnil
  have hnames := dna_combineGo_names d1 d2 rand (DNA.unionNames d1 d2) 0
    (fun m hm => (dna_mem_unionNames d1 d2 m).mp hm)
  have h2 : DNA.unionNames d1 d2 = [] := by
    have hnil2 : DNA.combineGo d1 d2 rand (DNA.unionNames d1 d2) 0 = [] := hnil
    rw [← hnames, hnil2]
    rfl
  have h4 := congrArg List.length h2
  rw [DNA.unionNames, List.length_append] at h4
  simp only [List.length_nil] at h4
  have h5 : (DNA.names d1).length = 0 := by omega
  exact h (by simpa [DNA.names] using List.eq_nil_of_length_eq_zero h5)

/-- C3: the reproduce contract.  If either participant is not adult or
either has energy below 50, nothing changes and none is returned.
Past the gates, a success draw above the success chance costs the
caller exactly 10 energy and returns none.  Otherwise the caller pays
exactly 30 energy, the offspring's genome is
mutate(combine(self.genome, partner.genome)), its position the
floored midpoint of the parents' positions, its stats fresh, and it is
submitted to World.addAnimal — whose verdict decides between the
returned offspring and none, with the 30-energy cost kept either way
and the world left as addAnimal leaves it. -/
theorem reproduce_contract (self partner : AnimalState) (w : WorldState)
    (cid : ℕ) (u : ℚ) (randC randM : ℕ → ℚ) :
    ((Animal.isAdult self = false ∨ Animal.isAdult partner = false ∨
      self.stats.energy < 50 ∨ partner.stats.energy < 50) →
      Animal.reproduce self partner w cid u randC randM = (self, w, none)) ∧
    (Animal.isAdult self = true → Animal.isAdult partner = true →
     (50 : ℚ) ≤ self.stats.energy → (50 : ℚ) ≤ partner.stats.energy →
      ((Animal.reproSuccessChance self w < u →
        Animal.reproduce self partner w cid u randC randM =
          ({ self with stats :=
               { self.stats with energy := self.stats.energy - 10 } }, w, none)) ∧
       (u ≤ Animal.reproSuccessChance self w → self.dna ≠ [] →
        Animal.reproduce self partner w cid u randC randM =
          ({ self with stats :=
               { self.stats with energy := self.stats.energy - 30 } },
           (World.addAnimal w cid).2,
           if (World.addAnimal w cid).1 then
             some { dna := DNA.mutate (DNA.combine self.dna partner.dna randC) randM,
                    pos := ⟨Int.fdiv (self.pos.x + partner.pos.x) 2,
                            Int.fdiv (self.pos.y + partner.pos.y) 2⟩,
                    stats := { health := 100, energy := 100, age := 0, hunger := 0 } }
           else none)))) := by
  constructor
  · intro h
    by_cases h1 : (Animal.isAdult self = false ∨ Animal.isAdult partner = false)
    · simp only [Animal.reproduce]
      rw [if_pos h1]
    · have h2 : self.stats.energy < 50 ∨ (Animal.getStats partner).energy < 50 := by
        rcases h with h | h | h | h
        · exact absurd (Or.inl h) h1
        · exact absurd (Or.inr h) h1
        · exact Or.inl h
        · exact Or.inr h
      simp only [Animal.reproduce]
      rw [if_neg h1, if_pos h2]
  · intro hs hp he1 he2
    have h1 : ¬ (Animal.isAdult self = false ∨ Animal.isAdult partner = false) := by
      simp [hs, hp]
    have h2 : ¬ (self.stats.energy < 50 ∨ (Animal.getStats partner).energy < 50) := by
      simp only [not_or, not_lt]
      exact ⟨he1, he2⟩
    constructor
    · intro hu
      simp only [Animal.reproduce]
      rw [if_neg h1, if_neg h2, if_pos hu]
    · intro hu hdna
      have hne : DNA.mutate (DNA.combine self.dna partner.dna randC) randM ≠ [] :=
        dna_mutate_ne_nil randM (dna_combine_ne_nil partner.dna randC hdna)
      simp only [Animal.reproduce]
      rw [if_neg h1, if_neg h2, if_neg (not_lt.mpr hu)]
      simp only [Animal.getDNA, Animal.getPosition]
      cases hb : (World.addAnimal w cid).1 <;>
        simp [hb, Animal.mkAnimal, hne]

/-- Witness for reproduce_contract: a successful reproduction between
an adult caller carrying only a sure-mutating reproductiveUrge gene
and an adult empty-genome partner in an empty capacity-30 world. -/
theorem reproduce_contract_wit :
    Animal.reproduce ⟨[⟨"reproductiveUrge", 1, 1/10⟩], ⟨0, 0⟩, ⟨100, 80, 30, 0⟩⟩
        ⟨[], ⟨2, 3⟩, ⟨100, 80, 30, 0⟩⟩ ⟨[], 30, 0⟩ 0 (1/2)
        (fun _ => 0) (fun _ => 0) =
      (⟨[⟨"reproductiveUrge", 1, 1/10⟩], ⟨0, 0⟩, ⟨100, 80 - 30, 30, 0⟩⟩,
       (World.addAnimal ⟨[], 30, 0⟩ 0).2,
       if (World.addAnimal ⟨[], 30, 0⟩ 0).1 then
         some ⟨DNA.mutate (DNA.combine [⟨"reproductiveUrge", 1, 1/10⟩] []
                  (fun _ => 0)) (fun _ => 0),
               ⟨Int.fdiv (0 + 2) 2, Int.fdiv (0 + 3) 2⟩, ⟨100, 100, 0, 0⟩⟩
       else none) := by
  have h := (reproduce_contract
    ⟨[⟨"reproductiveUrge", 1, 1/10⟩], ⟨0, 0⟩, ⟨100, 80, 30, 0⟩⟩
    ⟨[], ⟨2, 3⟩, ⟨100, 80, 30, 0⟩⟩ ⟨[], 30, 0⟩ 0 (1/2)
    (fun _ => 0) (fun _ => 0)).2
    (by
      have hg : DNA.getGene [(⟨"reproductiveUrge", 1, 1/10⟩ : Gene)]
          ("maturityAge") = none := rfl
      norm_num [Animal.isAdult, Animal.maturityAge, hg, max_def])
    (by
      have hg : DNA.getGene ([] : DNA) ("maturityAge") = none := rfl
      norm_num [Animal.isAdult, Animal.maturityAge, hg, max_def])
    (by norm_num) (by norm_num)
  exact h.2
    (by
      have hg : DNA.getGene [(⟨"reproductiveUrge", 1, 1/10⟩ : Gene)]
          ("reproductiveUrge") = some ⟨"reproductiveUrge", 1, 1/10⟩ := rfl
      norm_num [Animal.reproSuccessChance, Animal.geneValD, hg, max_def])
    (by simp)

/-- C6 counterexample: the success-path energy gain is not
30 + uniform(0,20).  With the gain draw 1/40 (a uniform(0,20) sample
of 0.5), an attacker at 50 energy with fallback genes succeeds against
draw 0 and ends at 65 energy — the code gains 30 + floor(0.5) = 30 —
whereas gaining 30 + 0.5 as claimed would end at 65.5. -/
theorem attack_cex :
    (Animal.attack ⟨[], ⟨0, 0⟩, ⟨100, 50, 0, 0⟩⟩ ⟨[], ⟨0, 0⟩, ⟨100, 100, 0, 0⟩⟩
        ⟨[7], 30, 0⟩ 7 0 (1/40)).1.stats.energy = 65 ∧
    (Animal.attack ⟨[], ⟨0, 0⟩, ⟨100, 50, 0, 0⟩⟩ ⟨[], ⟨0, 0⟩, ⟨100, 100, 0, 0⟩⟩
        ⟨[7], 30, 0⟩ 7 0 (1/40)).1.stats.energy ≠
      min 100 ((50 : ℚ) - 15 + (30 + 20 * (1/40))) := by
  have hg : DNA.getGene ([] : DNA) ("aggression") = none := rfl
  have hg2 : DNA.getGene ([] : DNA) ("speed") = none := rfl
  constructor <;>
    norm_num [Animal.attack, Animal.attackSuccessChance, Animal.geneValD,
      hg, hg2, World.removeAnimal, min_def, max_def]

/-- C6 amended: for an attacker with at least 20 energy, exactly 15
energy is spent on every invocation; on success (draw below the
success chance) the attacker additionally gains
30 + floor(20 * uniform(0,1)) energy capped at 100, loses 40 hunger
floored at 0, the target is removed from the world registry, and true
is returned; on failure the 15-energy cost is the only effect and
false is returned. -/
theorem attack_contract (self target : AnimalState) (w : WorldState)
    (tid : ℕ) (u1 u2 : ℚ) (h : (20 : ℚ) ≤ self.stats.energy) :
    (u1 < Animal.attackSuccessChance self target →
      Animal.attack self target w tid u1 u2 =
        ({ self with stats := { self.stats with
             energy := min 100 (self.stats.energy - 15 + (30 + ((⌊u2 * 20⌋ : ℤ) : ℚ))),
             hunger := max 0 (self.stats.hunger - 40) } },
         World.removeAnimal w tid, true)) ∧
    (¬ u1 < Animal.attackSuccessChance self target →
      Animal.attack self target w tid u1 u2 =
        ({ self with stats := { self.stats with energy := self.stats.energy - 15 } },
         w, false)) := by
  have hnot : ¬ self.stats.energy < 20 := not_lt.mpr h
  constructor
  · intro hs
    simp only [Animal.attack]
    rw [if_neg hnot, if_pos hs]
  · intro hf
    simp only [Animal.attack]
    rw [if_neg hnot, if_neg hf]

/-- Witness for attack_contract: the concrete successful attack of the
counterexample scenario, via the contract. -/
theorem attack_contract_wit :
    Animal.attack ⟨[], ⟨0, 0⟩, ⟨100, 50, 0, 0⟩⟩ ⟨[], ⟨0, 0⟩, ⟨100, 100, 0, 0⟩⟩
        ⟨[7], 30, 0⟩ 7 0 (1/40) =
      (⟨[], ⟨0, 0⟩,
        ⟨100, min 100 ((50 : ℚ) - 15 + (30 + ((⌊(1/40 : ℚ) * 20⌋ : ℤ) : ℚ))),
         0, max 0 ((0 : ℚ) - 40)⟩⟩,
       World.removeAnimal ⟨[7], 30, 0⟩ 7, true) := by
  have hg : DNA.getGene ([] : DNA) ("aggression") = none := rfl
  have hg2 : DNA.getGene ([] : DNA) ("speed") = none := rfl
  exact (attack_contract ⟨[], ⟨0, 0⟩, ⟨100, 50, 0, 0⟩⟩ ⟨[], ⟨0, 0⟩, ⟨100, 100, 0, 0⟩⟩
      ⟨[7], 30, 0⟩ 7 0 (1/40) (by norm_num)).1
    (by norm_num [Animal.attackSuccessChance, Animal.geneValD, hg, hg2, max_def])
